import Mathlib

/-!
Verification of the indexing and retrieval pipeline of the Snipiq repository.

The TypeScript source is embedded shallowly:
* `Promise`-returning operations become functions into `Option` (a fulfilled
  promise is `some`, a rejected one is `none`);
* the event-loop concurrency of `Promise.allSettled` is modelled by the batch
  structure of the loop in `processConcurrently`: all members of one batch are
  "in flight" together, and a batch is fully settled before the next starts;
* JavaScript numbers used by the polling loop are modelled as exact rationals;
* calls to the external vector store are modelled by passing the store's
  responses in as explicit arguments and recording the calls the code makes
  in an explicit trace structure.
-/

namespace Snipiq

/-- Configuration constant from `src/app/api/index/route.ts`:
`const MAX_INDEX_WAIT_TIME = 10 * 60 * 1000`. -/
def MAX_INDEX_WAIT_TIME : ℚ := 10 * 60 * 1000

/-- Configuration constant: `const POLLING_INTERVAL = 2000`. -/
def POLLING_INTERVAL : ℚ := 2000

/-- Configuration constant: `const MAX_CONCURRENT_FILES = 5`. -/
def MAX_CONCURRENT_FILES : Nat := 5

/-- Configuration constant: `const MAX_CONCURRENT_EMBEDDINGS = 10`. -/
def MAX_CONCURRENT_EMBEDDINGS : Nat := 10

/-- Configuration constant: `const MAX_RETRIES = 30`. -/
def MAX_RETRIES : Nat := 30

/-- Collection name shared by the gateway modules (`lib/milvus.ts`):
`const COLLECTION_NAME = 'code_embeddings'`. -/
def COLLECTION_NAME : String := "code_embeddings"

/-!
## Bounded Concurrency Runner

`processConcurrently` in `src/app/api/index/route.ts` iterates
`for (let i = 0; i < items.length; i += maxConcurrency)`, slices the batch
`items.slice(i, i + maxConcurrency)`, awaits `Promise.allSettled` of the
mapped processor, then pushes every fulfilled value (in batch order) and logs
every rejection.  The processor is modelled as `T → Option R`; a fulfilled
settlement is `some`, a rejection is `none`.  With `maxConcurrency = 0` the
JavaScript loop would never advance `i`; the model returns `[]` in that case,
and every theorem below assumes the spec precondition `1 ≤ maxConcurrency`.
-/

/-- Shallow embedding of `processConcurrently` from
`src/app/api/index/route.ts` (lines 28-52). -/
def processConcurrently {T R : Type} (items : List T) (processor : T → Option R)
    (maxConcurrency : Nat) : List R :=
  if h : maxConcurrency = 0 then []
  else
    match items with
    | [] => []
    | x :: xs =>
      ((x :: xs).take maxConcurrency).filterMap processor ++
        processConcurrently ((x :: xs).drop maxConcurrency) processor maxConcurrency
termination_by items.length
decreasing_by
  simp only [List.length_drop, List.length_cons]
  omega

/-- The batch decomposition performed by the slice loop of
`processConcurrently`: consecutive slices of `maxConcurrency` items. -/
def batches {T : Type} (items : List T) (maxConcurrency : Nat) : List (List T) :=
  if h : maxConcurrency = 0 then []
  else
    match items with
    | [] => []
    | x :: xs =>
      (x :: xs).take maxConcurrency :: batches ((x :: xs).drop maxConcurrency) maxConcurrency
termination_by items.length
decreasing_by
  simp only [List.length_drop, List.length_cons]
  omega

/-- The sizes of the batches produced for `n` items at ceiling `k`. -/
def batchSizes (n k : Nat) : List Nat :=
  if h : k = 0 then []
  else if n = 0 then [] else min k n :: batchSizes (n - k) k
termination_by n
decreasing_by omega

theorem processConcurrently_nil {T R : Type} (processor : T → Option R) (k : Nat) :
    processConcurrently [] processor k = [] := by
  rw [processConcurrently]
  split <;> rfl

theorem processConcurrently_cons {T R : Type} (x : T) (xs : List T)
    (processor : T → Option R) (k : Nat) (hk : k ≠ 0) :
    processConcurrently (x :: xs) processor k =
      ((x :: xs).take k).filterMap processor ++
        processConcurrently ((x :: xs).drop k) processor k := by
  rw [processConcurrently]
  simp [hk]

theorem batches_nil {T : Type} (k : Nat) : batches ([] : List T) k = [] := by
  rw [batches]
  split <;> rfl

theorem batches_cons {T : Type} (x : T) (xs : List T) (k : Nat) (hk : k ≠ 0) :
    batches (x :: xs) k = (x :: xs).take k :: batches ((x :: xs).drop k) k := by
  rw [batches]
  simp [hk]

/-- The runner's output is the in-order sequence of the successful results:
unfolding the batch loop, every batch contributes its fulfilled values in
input order, so the whole output is `items.filterMap processor`. -/
theorem processConcurrently_eq_filterMap {T R : Type} (processor : T → Option R)
    (k : Nat) (hk : 1 ≤ k) (items : List T) :
    processConcurrently items processor k = items.filterMap processor := by
  generalize hn : items.length = n
  induction n using Nat.strong_induction_on generalizing items with
  | _ n ih =>
    match items with
    | [] => simp [processConcurrently_nil]
    | x :: xs =>
      rw [processConcurrently_cons x xs processor k (by omega)]
      rw [ih ((x :: xs).drop k).length ?_ _ rfl]
      · rw [← List.filterMap_append, List.take_append_drop]
      · subst hn
        simp only [List.length_drop, List.length_cons]
        omega

/-- The batches concatenate back to the original item list. -/
theorem batches_join {T : Type} (k : Nat) (hk : 1 ≤ k) (items : List T) :
    (batches items k).flatten = items := by
  generalize hn : items.length = n
  induction n using Nat.strong_induction_on generalizing items with
  | _ n ih =>
    match items with
    | [] => simp [batches_nil]
    | x :: xs =>
      rw [batches_cons x xs k (by omega), List.flatten_cons]
      rw [ih ((x :: xs).drop k).length ?_ _ rfl]
      · exact List.take_append_drop _ _
      · subst hn
        simp only [List.length_drop, List.length_cons]
        omega

/-- Every batch has at most `k` elements. -/
theorem batches_length_le {T : Type} (k : Nat) (items : List T) :
    ∀ b ∈ batches items k, b.length ≤ k := by
  generalize hn : items.length = n
  induction n using Nat.strong_induction_on generalizing items with
  | _ n ih =>
    match items with
    | [] => simp [batches_nil]
    | x :: xs =>
      by_cases hk : k = 0
      · subst hk
        rw [batches]
        simp
      · rw [batches_cons x xs k hk]
        intro b hb
        rcases List.mem_cons.mp hb with h | h
        · subst h
          simpa using List.length_take_le k (x :: xs)
        · exact ih ((x :: xs).drop k).length
            (by subst hn; simp only [List.length_drop, List.length_cons]; omega)
            _ rfl b h

/-- The batch sizes are exactly `batchSizes items.length k`. -/
theorem batches_map_length {T : Type} (k : Nat) (hk : 1 ≤ k) (items : List T) :
    (batches items k).map List.length = batchSizes items.length k := by
  generalize hn : items.length = n
  induction n using Nat.strong_induction_on generalizing items with
  | _ n ih =>
    match items with
    | [] =>
      have hk0 : ¬ k = 0 := by omega
      subst hn
      rw [batches_nil, batchSizes]
      simp [hk0]
    | x :: xs =>
      have hk0 : ¬ k = 0 := by omega
      rw [batches_cons x xs k hk0, List.map_cons]
      rw [ih ((x :: xs).drop k).length ?_ _ rfl]
      · subst hn
        conv_rhs => rw [batchSizes]
        have hne : ¬ (x :: xs).length = 0 := by simp
        simp only [hk0, dite_false, hne, if_false, List.length_take,
          List.length_drop]
      · subst hn
        simp only [List.length_drop, List.length_cons]
        omega

/-- Every batch size except possibly the last equals the ceiling `k`. -/
theorem batchSizes_dropLast (k : Nat) (hk : 1 ≤ k) :
    ∀ n, ∀ s ∈ (batchSizes n k).dropLast, s = k := by
  intro n
  induction n using Nat.strong_induction_on with
  | _ n ih =>
    intro s hs
    have hk0 : ¬ k = 0 := by omega
    rw [batchSizes] at hs
    simp only [hk0, dite_false] at hs
    by_cases hn : n = 0
    · simp [hn] at hs
    · simp only [hn, if_false] at hs
      by_cases htail : batchSizes (n - k) k = []
      · simp [htail] at hs
      · rw [List.dropLast_cons_of_ne_nil htail] at hs
        rcases List.mem_cons.mp hs with h | h
        · have hnk : n - k ≠ 0 := by
            intro h0
            rw [batchSizes] at htail
            simp [hk0, h0] at htail
          subst h
          omega
        · exact ih (n - k) (by omega) s h

/-- The runner processes the batches strictly in sequence: the output is the
concatenation, in batch order, of each batch's fulfilled results. -/
theorem processConcurrently_eq_join_batches {T R : Type} (processor : T → Option R)
    (k : Nat) (hk : 1 ≤ k) (items : List T) :
    processConcurrently items processor k =
      ((batches items k).map (fun b => b.filterMap processor)).flatten := by
  generalize hn : items.length = n
  induction n using Nat.strong_induction_on generalizing items with
  | _ n ih =>
    match items with
    | [] => simp [processConcurrently_nil, batches_nil]
    | x :: xs =>
      have hk0 : k ≠ 0 := by omega
      rw [processConcurrently_cons x xs processor k hk0,
        batches_cons x xs k hk0, List.map_cons, List.flatten_cons]
      rw [ih ((x :: xs).drop k).length ?_ _ rfl]
      subst hn
      simp only [List.length_drop, List.length_cons]
      omega

/-!
## Vector Store Gateway: index creation and readiness polling

`createIndexIfNeeded` in `src/app/api/index/route.ts` (lines 120-187) first
calls `describeIndex` (errors are caught and turned into `null`); if the
response has a positive `index_descriptions` length it returns immediately.
Otherwise it calls `createIndex` with an `nlist` derived from
`totalEmbeddings`, then polls `getIndexState` in a loop
`while (elapsedTime < MAX_INDEX_WAIT_TIME && retryCount < MAX_RETRIES)`,
sleeping `pollInterval` between polls and updating
`pollInterval = Math.min(pollInterval * 1.2, 10000)`.

The store is modelled by its responses: `describeResult : Option Nat` is the
`index_descriptions` length (`none` when `describeIndex` rejected and was
caught as `null`), and `states : Nat → String` gives the `state` string
returned by the k-th `getIndexState` call.  JavaScript numbers are modelled
as exact rationals.  The calls and sleeps the code performs are recorded in
a trace.
-/

/-- `indexState === 'Finished' || indexState === 'IndexStateFinished'`. -/
def isFinishedState (s : String) : Bool :=
  s = "Finished" || s = "IndexStateFinished"

/-- `indexState === 'Failed' || indexState === 'IndexStateFailed'`. -/
def isFailedState (s : String) : Bool :=
  s = "Failed" || s = "IndexStateFailed"

/-- How the polling loop ends: the index became ready, the store reported a
build failure (the code throws `Error('Index creation failed')`), or a bound
was hit (the code throws the timeout `Error`). -/
inductive PollResult where
  | success
  | buildFailed
  | timeout
deriving Repr, DecidableEq

/-- Observable behaviour of one run of the polling loop: how many
`getIndexState` calls it made, the sleep intervals in order, and how it
ended. -/
structure PollTrace where
  checks : Nat
  sleeps : List ℚ
  result : PollResult
deriving Repr, DecidableEq

/-- Shallow embedding of the polling loop of `createIndexIfNeeded`
(route.ts lines 151-181).  `states k` is the state string the store returns
on the poll made when `retryCount = k`. -/
def pollLoop (states : Nat → String) (elapsedTime pollInterval : ℚ)
    (retryCount : Nat) : PollTrace :=
  if h : elapsedTime < MAX_INDEX_WAIT_TIME ∧ retryCount < MAX_RETRIES then
    if isFinishedState (states retryCount) then ⟨1, [], .success⟩
    else if isFailedState (states retryCount) then ⟨1, [], .buildFailed⟩
    else
      let rest := pollLoop states (elapsedTime + pollInterval)
        (min (pollInterval * 1.2) 10000) (retryCount + 1)
      ⟨rest.checks + 1, pollInterval :: rest.sleeps, rest.result⟩
  else ⟨0, [], .timeout⟩
termination_by MAX_RETRIES - retryCount
decreasing_by
  obtain ⟨h1, h2⟩ := h
  omega

/-- The `nlist` clustering parameter passed to `createIndex`:
`Math.min(128, Math.max(4, Math.ceil(totalEmbeddings / 2)))`; the ceiling of
`n / 2` on naturals is `(n + 1) / 2`. -/
def nlist (totalEmbeddings : Nat) : Nat :=
  min 128 (max 4 ((totalEmbeddings + 1) / 2))

/-- Outcome of `createIndexIfNeeded`: returned `true` because an index
already existed, returned `true` after a successful build, threw the
build-failure error, or threw the timeout error. -/
inductive IndexOutcome where
  | alreadyExists
  | built
  | buildFailed
  | timedOut
deriving Repr, DecidableEq

/-- Observable behaviour of one `createIndexIfNeeded` call: the `nlist`
values of the `createIndex` calls it issued, the number of `getIndexState`
calls, the sleeps, and the outcome. -/
structure IndexTrace where
  createCalls : List Nat
  stateChecks : Nat
  sleeps : List ℚ
  outcome : IndexOutcome
deriving Repr, DecidableEq

/-- The build-and-poll branch of `createIndexIfNeeded`: one `createIndex`
call with the derived `nlist`, then the polling loop starting from
`elapsedTime = 0`, `pollInterval = POLLING_INTERVAL`, `retryCount = 0`. -/
def buildIndex (states : Nat → String) (totalEmbeddings : Nat) : IndexTrace :=
  let t := pollLoop states 0 POLLING_INTERVAL 0
  ⟨[nlist totalEmbeddings], t.checks, t.sleeps,
    match t.result with
    | .success => .built
    | .buildFailed => .buildFailed
    | .timeout => .timedOut⟩

/-- Shallow embedding of `createIndexIfNeeded` (route.ts lines 120-187).
`describeResult` models the `describeIndex` response:
`some n` is a response whose `index_descriptions` has length `n`, and
`none` models a rejected `describeIndex` call caught and replaced by `null`.
The short-circuit is `if (indexInfo && indexInfo.index_descriptions?.length > 0)`. -/
def createIndexIfNeeded (describeResult : Option Nat) (states : Nat → String)
    (totalEmbeddings : Nat) : IndexTrace :=
  match describeResult with
  | some n =>
    if n > 0 then ⟨[], 0, [], .alreadyExists⟩
    else buildIndex states totalEmbeddings
  | none => buildIndex states totalEmbeddings

theorem isFinishedState_eq_false_of_isFailedState {s : String}
    (h : isFailedState s = true) : isFinishedState s = false := by
  simp only [isFailedState, Bool.or_eq_true, decide_eq_true_eq] at h
  rcases h with h | h <;> subst h <;> decide

/-- When a bound of the `while` guard is already violated the loop body never
runs: no state check, no sleep, and the code reaches the timeout `throw`. -/
theorem pollLoop_stopped (states : Nat → String) (elapsed p : ℚ) (r : Nat)
    (h : ¬ (elapsed < MAX_INDEX_WAIT_TIME ∧ r < MAX_RETRIES)) :
    pollLoop states elapsed p r = ⟨0, [], .timeout⟩ := by
  rw [pollLoop]
  simp [h]

/-- If the guard holds and the state observed on this poll is a failure
string, the loop throws at once: exactly one state check, no sleep. -/
theorem pollLoop_failed (states : Nat → String) (elapsed p : ℚ) (r : Nat)
    (h1 : elapsed < MAX_INDEX_WAIT_TIME) (h2 : r < MAX_RETRIES)
    (hf : isFailedState (states r) = true) :
    pollLoop states elapsed p r = ⟨1, [], .buildFailed⟩ := by
  rw [pollLoop]
  simp [h1, h2, hf, isFinishedState_eq_false_of_isFailedState hf]

/-- The loop makes at most `MAX_RETRIES - retryCount` state checks. -/
theorem pollLoop_checks_le (states : Nat → String) :
    ∀ (m r : Nat) (elapsed p : ℚ), MAX_RETRIES - r ≤ m →
      (pollLoop states elapsed p r).checks ≤ m := by
  intro m
  induction m with
  | zero =>
    intro r elapsed p hm
    rw [pollLoop_stopped states elapsed p r (by simp only [MAX_RETRIES] at *; omega)]
  | succ m ih =>
    intro r elapsed p hm
    rw [pollLoop]
    by_cases hg : elapsed < MAX_INDEX_WAIT_TIME ∧ r < MAX_RETRIES
    · simp only [hg, and_self, dite_true]
      by_cases hf : isFinishedState (states r)
      · simp [hf]
      · simp only [hf, Bool.false_eq_true, if_false]
        by_cases hfl : isFailedState (states r)
        · simp [hfl]
        · simp only [hfl, Bool.false_eq_true, if_false]
          have := ih (r + 1) (elapsed + p) (min (p * 1.2) 10000) (by omega)
          omega
    · simp [hg]

/-- If the store keeps answering with a state that is neither finished nor
failed, the loop always ends in the timeout throw. -/
theorem pollLoop_timeout (states : Nat → String)
    (hb : ∀ j, isFinishedState (states j) = false ∧ isFailedState (states j) = false) :
    ∀ (m r : Nat) (elapsed p : ℚ), MAX_RETRIES - r ≤ m →
      (pollLoop states elapsed p r).result = .timeout := by
  intro m
  induction m with
  | zero =>
    intro r elapsed p hm
    rw [pollLoop_stopped states elapsed p r (by simp only [MAX_RETRIES] at *; omega)]
  | succ m ih =>
    intro r elapsed p hm
    rw [pollLoop]
    by_cases hg : elapsed < MAX_INDEX_WAIT_TIME ∧ r < MAX_RETRIES
    · simp only [hg, and_self, dite_true, (hb r).1, (hb r).2, Bool.false_eq_true,
        if_false]
      exact ih (r + 1) (elapsed + p) (min (p * 1.2) 10000) (by omega)
    · simp [hg]

/-- Interval algebra: once capped the interval stays capped, so the interval
slept before poll `i + 1` of a loop started at interval `p` is
`min (p * 1.2 ^ i, 10000)` composed once more with the growth step. -/
theorem min_growth_step (p : ℚ) (i : Nat) :
    min (min (p * 1.2) 10000 * (1.2 : ℚ) ^ i) 10000 =
      min (p * (1.2 : ℚ) ^ (i + 1)) 10000 := by
  have hpow : (0 : ℚ) ≤ (1.2 : ℚ) ^ i := by positivity
  have hone : (1 : ℚ) ≤ (1.2 : ℚ) ^ i := one_le_pow₀ (by norm_num)
  rw [min_mul_of_nonneg _ _ hpow, min_assoc]
  have hcap : min ((10000 : ℚ) * (1.2 : ℚ) ^ i) 10000 = 10000 :=
    min_eq_right (le_mul_of_one_le_right (by norm_num) hone)
  rw [hcap, pow_succ]
  ring_nf

/-- The sleep before the i-th remaining poll of a loop whose current interval
is `p ≤ 10000` is `min (p * 1.2 ^ i, 10000)`. -/
theorem pollLoop_sleeps_getD (states : Nat → String) :
    ∀ (m r : Nat) (elapsed p : ℚ), MAX_RETRIES - r ≤ m → p ≤ 10000 →
      ∀ i, i < (pollLoop states elapsed p r).sleeps.length →
        (pollLoop states elapsed p r).sleeps.getD i 0 =
          min (p * (1.2 : ℚ) ^ i) 10000 := by
  intro m
  induction m with
  | zero =>
    intro r elapsed p hm hp i hi
    rw [pollLoop_stopped states elapsed p r (by simp only [MAX_RETRIES] at *; omega)] at hi
    simp at hi
  | succ m ih =>
    intro r elapsed p hm hp i hi
    by_cases hg : elapsed < MAX_INDEX_WAIT_TIME ∧ r < MAX_RETRIES
    · rw [pollLoop] at hi ⊢
      simp only [hg, and_self, dite_true] at hi ⊢
      by_cases hf : isFinishedState (states r)
      · simp [hf] at hi
      · simp only [hf, Bool.false_eq_true, if_false] at hi ⊢
        by_cases hfl : isFailedState (states r)
        · simp [hfl] at hi
        · simp only [hfl, Bool.false_eq_true, if_false] at hi ⊢
          match i with
          | 0 =>
            simp only [List.getD, List.get?_cons_zero, Option.getD_some]
            rw [pow_zero, mul_one, min_eq_left hp]
          | i + 1 =>
            simp only [List.getD, List.get?_cons_succ]
            simp only [List.length_cons] at hi
            have := ih (r + 1) (elapsed + p) (min (p * 1.2) 10000) (by omega)
              (min_le_right _ _) i (by omega)
            simp only [List.getD] at this
            rw [this]
            exact min_growth_step p i
    · rw [pollLoop_stopped states elapsed p r hg] at hi
      simp at hi

/-!
## Indexing Orchestrator: the POST handler after embedding generation

The `POST` handler of `src/app/api/index/route.ts` flattens the per-file
embedding lists, returns a 400 JSON response when the flat list is empty
(lines 218-224), and otherwise inserts: in slices of 1000 when
`embeddingsToInsert.length > 1000`, else as one single insert call
(lines 232-247), finally answering 200 with `success: true`.
Only the fields relevant to the verified claims are modelled in the JSON
body; an absent JSON field is `none`.
-/

/-- The JSON body and HTTP status of the handler's response.  `success` is
`none` when the body has no `success` field at all. -/
structure IndexResponseBody where
  status : Nat
  success : Option Bool
  message : Option String
  details : Option String
deriving Repr, DecidableEq

/-- The insert batching of the `POST` handler (route.ts lines 232-247): the
slice loop for more than 1000 records is the same slicing as the runner's,
so it is expressed with `batches`; at most 1000 records go in one call. -/
def insertBatches {A : Type} (embeddingsToInsert : List A) : List (List A) :=
  if embeddingsToInsert.length > 1000 then batches embeddingsToInsert 1000
  else [embeddingsToInsert]

/-- Shallow embedding of the `POST` handler from the point where the
per-file results `allEmbeddings` are available (route.ts lines 212-263),
assuming the downstream store calls succeed: the JSON response paired with
the sequence of `insert` calls issued (each element one call's record
batch). -/
def postIndex {A : Type} (allEmbeddings : List (List A)) :
    IndexResponseBody × List (List A) :=
  let embeddingsToInsert := allEmbeddings.flatten
  if embeddingsToInsert.length = 0 then
    (⟨400, none, some "No embeddings could be generated",
      some "Check file contents and embedding generation"⟩, [])
  else
    (⟨200, some true, some "Codebase indexed successfully.", none⟩,
      insertBatches embeddingsToInsert)

/-!
## Vector Store Gateway: session-scoped search

`searchVectors` in `lib/milvus.ts` (the gateway used by the orchestrator's
session query path) sends a search request whose `filter` is the string
`sessionId == "<id>"`, then walks `searchResult.results[0]` and keeps every
hit that passes the shape type guard — the guard checks presence and types
of `id`, `content`, `file_path`, `embedding` and `sessionId`, but does NOT
compare the hit's `sessionId` with the requested one.  The underlying store
is modelled as a function from the request to `results` (a list of hit
lists, one per query vector); a raw hit's fields are `Option`-valued so that
a missing field is `none`, exactly what the type guard tests.
Vector components and scores are modelled as rationals.
-/

/-- A raw hit as it comes back from the store, before the type guard.
`none` in a field models a missing (or wrongly typed) JSON field. -/
structure RawHit where
  id : Option Int
  content : Option String
  file_path : Option String
  embedding : Option (List ℚ)
  sessionId : Option String
  score : Option ℚ
deriving Repr, DecidableEq

/-- The `CodeChunk` result shape built by `searchVectors`; `similarity` is
copied from the raw hit's `score`, which the guard does not require. -/
structure StoreChunk where
  id : Int
  content : String
  file_path : String
  embedding : List ℚ
  sessionId : String
  similarity : Option ℚ
deriving Repr, DecidableEq

/-- The argument object passed to `client.search`. -/
structure SearchCall where
  collection_name : String
  vectors : List (List ℚ)
  limit : Nat
  filter : String
  output_fields : List String
deriving Repr, DecidableEq

/-- The search request `searchVectors` builds for a query embedding, a
session id and a limit (lib/milvus.ts lines 146-152). -/
def mkSearchCall (queryEmbedding : List ℚ) (sessionId : String) (limit : Nat) :
    SearchCall :=
  ⟨COLLECTION_NAME, [queryEmbedding], limit,
    "sessionId == \"" ++ sessionId ++ "\"",
    ["id", "content", "file_path", "embedding", "sessionId"]⟩

/-- The shape type guard of `searchVectors` (lib/milvus.ts lines 158-174):
a hit with all required fields present becomes a `StoreChunk`, anything else
is logged and dropped. -/
def hitGuard (hit : RawHit) : Option StoreChunk :=
  match hit.id, hit.content, hit.file_path, hit.embedding, hit.sessionId with
  | some i, some c, some fp, some emb, some sid =>
    some ⟨i, c, fp, emb, sid, hit.score⟩
  | _, _, _, _, _ => none

/-- Shallow embedding of `searchVectors` (lib/milvus.ts lines 139-182).
`store` maps the request to the store's `results` field. -/
def searchVectors (store : SearchCall → List (List RawHit))
    (queryEmbedding : List ℚ) (sessionId : String) (limit : Nat) :
    List StoreChunk :=
  match store (mkSearchCall queryEmbedding sessionId limit) with
  | [] => []
  | first :: _ => first.filterMap hitGuard

theorem hitGuard_sessionId {hit : RawHit} {out : StoreChunk}
    (h : hitGuard hit = some out) : hit.sessionId = some out.sessionId := by
  unfold hitGuard at h
  rcases hit with ⟨i, c, fp, emb, sid, sc⟩
  rcases i with _ | i <;> rcases c with _ | c <;> rcases fp with _ | fp <;>
    rcases emb with _ | emb <;> rcases sid with _ | sid <;>
    simp_all <;> subst h <;> rfl

theorem length_filterMap_eq_countP {T R : Type} (f : T → Option R) (l : List T) :
    (l.filterMap f).length = l.countP (fun x => (f x).isSome) := by
  induction l with
  | nil => rfl
  | cons x xs ih =>
    rw [List.filterMap_cons, List.countP_cons]
    cases hf : f x with
    | none => simp [hf, ih]
    | some r => simp [hf, ih]

theorem createCalls_eq_nil_or (describeResult : Option Nat) (states : Nat → String)
    (n : Nat) :
    (createIndexIfNeeded describeResult states n).createCalls = [] ∨
      (createIndexIfNeeded describeResult states n).createCalls = [nlist n] := by
  rcases describeResult with _ | d
  · right; rfl
  · unfold createIndexIfNeeded
    by_cases hd : d > 0
    · left; simp [hd]
    · right; simp [hd, buildIndex]

/-!
## Claim theorems
-/

/-- C1: for every item sequence and every `maxConcurrency ≥ 1`,
`processConcurrently` partitions the items into consecutive batches of size
`maxConcurrency` (the last batch possibly smaller), processes one batch
fully — all of it in flight together — before the next batch starts, so a
batch never holds more than `maxConcurrency` operations; the empty sequence
gives an empty result with no batch; and 7 items at ceiling 5 produce
batches of sizes `[5, 2]`. -/
theorem C1_runner_batching {T R : Type} (items : List T)
    (processor : T → Option R) (maxConcurrency : Nat) (hk : 1 ≤ maxConcurrency) :
    (batches items maxConcurrency).flatten = items
  ∧ (∀ b ∈ batches items maxConcurrency, b.length ≤ maxConcurrency)
  ∧ (∀ s ∈ (batchSizes items.length maxConcurrency).dropLast, s = maxConcurrency)
  ∧ (batches items maxConcurrency).map List.length =
      batchSizes items.length maxConcurrency
  ∧ processConcurrently items processor maxConcurrency =
      ((batches items maxConcurrency).map (fun b => b.filterMap processor)).flatten
  ∧ processConcurrently ([] : List T) processor maxConcurrency = []
  ∧ batchSizes 7 5 = [5, 2] := by
  refine ⟨batches_join maxConcurrency hk items,
    batches_length_le maxConcurrency items,
    batchSizes_dropLast maxConcurrency hk items.length,
    batches_map_length maxConcurrency hk items,
    processConcurrently_eq_join_batches processor maxConcurrency hk items,
    processConcurrently_nil processor maxConcurrency, ?_⟩
  rw [batchSizes]
  norm_num
  rw [batchSizes]
  norm_num
  rw [batchSizes]
  norm_num

theorem C1_witness : batchSizes 7 5 = [5, 2] :=
  (C1_runner_batching ([] : List Nat) (fun x => some x) 5 (by norm_num)).2.2.2.2.2.2

/-- C2: with `maxConcurrency ≥ 1`, a rejected item never removes another
item's result: every successful result is in the output, and the output has
exactly one entry per item whose operation succeeded. -/
theorem C2_failure_isolation {T R : Type} (items : List T)
    (processor : T → Option R) (maxConcurrency : Nat) (hk : 1 ≤ maxConcurrency) :
    (∀ x ∈ items, ∀ r, processor x = some r →
        r ∈ processConcurrently items processor maxConcurrency)
  ∧ (processConcurrently items processor maxConcurrency).length =
      items.countP (fun x => (processor x).isSome) := by
  constructor
  · intro x hx r hr
    rw [processConcurrently_eq_filterMap processor maxConcurrency hk]
    exact List.mem_filterMap.mpr ⟨x, hx, hr⟩
  · rw [processConcurrently_eq_filterMap processor maxConcurrency hk]
    exact length_filterMap_eq_countP processor items

theorem C2_witness :
    (processConcurrently [1, 2, 3] (fun x => if x = 2 then none else some x) 2).length =
      List.countP (fun x => (if x = 2 then none else some x : Option Nat).isSome)
        [1, 2, 3] :=
  (C2_failure_isolation [1, 2, 3] (fun x => if x = 2 then none else some x) 2
    (by norm_num)).2

/-- C3 (amended): when the flattened embedding sequence is empty the handler
makes no insert call and returns a structured 400 response whose body has a
`message` (and `details`) field but no `success` field at all — it does not
throw. -/
theorem C3_no_embeddings {A : Type} (allEmbeddings : List (List A))
    (h : allEmbeddings.flatten = []) :
    (postIndex allEmbeddings).1.status = 400
  ∧ (postIndex allEmbeddings).1.message = some "No embeddings could be generated"
  ∧ (postIndex allEmbeddings).1.details =
      some "Check file contents and embedding generation"
  ∧ (postIndex allEmbeddings).1.success = none
  ∧ (postIndex allEmbeddings).2 = [] := by
  simp [postIndex, h]

/-- C3 counterexample: the claim's payload shape `{success:false, message}`
is wrong — on an empty embedding sequence the body carries no `success`
field (`none`), not `success = some false`. -/
theorem C3_counterexample :
    (postIndex ([] : List (List Nat))).1.success = none ∧
      (postIndex ([] : List (List Nat))).1.success ≠ some false := by
  constructor
  · rfl
  · simp [postIndex]

theorem C3_witness :
    (postIndex ([[], []] : List (List Nat))).1.status = 400 :=
  (C3_no_embeddings ([[], []] : List (List Nat)) (by simp)).1

/-- C4 counterexample: the gateway does not re-check `sessionId` on the
rows the store returns, so a store that ignores the filter makes
`searchVectors` return a cross-session row: searching session "s1" against
such a store yields a hit stored under session "s2". -/
theorem C4_counterexample :
    (searchVectors
        (fun _ => [[⟨some 1, some "x", some "f.ts", some [], some "s2", some 0⟩]])
        [] "s1" 10).map StoreChunk.sessionId = ["s2"]
      ∧ "s2" ≠ "s1" := by
  exact ⟨rfl, by decide⟩

/-- C4 (amended): `searchVectors` always sends the equality filter
`sessionId == "<id>"` with the request, and provided the store honors that
filter (returns only rows of the requested session) every returned hit's
`sessionId` equals the requested one; the client itself performs no
re-filtering. -/
theorem C4_session_scoped (store : SearchCall → List (List RawHit))
    (q : List ℚ) (s : String) (limit : Nat)
    (hstore : ∀ row ∈ store (mkSearchCall q s limit), ∀ hit ∈ row,
        hit.sessionId = some s) :
    (mkSearchCall q s limit).filter = "sessionId == \"" ++ s ++ "\""
  ∧ ∀ out ∈ searchVectors store q s limit, out.sessionId = s := by
  refine ⟨rfl, ?_⟩
  intro out hout
  unfold searchVectors at hout
  cases hres : store (mkSearchCall q s limit) with
  | nil =>
    rw [hres] at hout
    simp at hout
  | cons first rest =>
    rw [hres] at hout
    obtain ⟨hit, hhit, hg⟩ := List.mem_filterMap.mp hout
    have h1 := hstore first (by rw [hres]; exact List.mem_cons_self _ _) hit hhit
    have h2 := hitGuard_sessionId hg
    rw [h1] at h2
    exact (Option.some.injEq _ _ ▸ h2).symm

theorem C4_witness :
    (mkSearchCall [] "s1" 5).filter = "sessionId == \"s1\"" :=
  (C4_session_scoped
    (fun _ => [[⟨some 1, some "c", some "f", some [], some "s1", some 0⟩]])
    [] "s1" 5 (by decide)).1

/-- C5: the interval slept before the k-th sleep of the index polling loop
is `min (T0 * 1.2 ^ k) cap` with `T0 = POLLING_INTERVAL = 2000` ms and
`cap = 10000` ms; while the state stays building the loop performs at most
`MAX_RETRIES` state checks and ends in the timeout throw; and whenever
elapsed time has reached `MAX_INDEX_WAIT_TIME` or the attempt count has
reached `MAX_RETRIES` the loop stops at once with the timeout throw. -/
theorem C5_poll_schedule (states : Nat → String) :
    (∀ i, i < (pollLoop states 0 POLLING_INTERVAL 0).sleeps.length →
        (pollLoop states 0 POLLING_INTERVAL 0).sleeps.getD i 0 =
          min (POLLING_INTERVAL * (1.2 : ℚ) ^ i) 10000)
  ∧ (pollLoop states 0 POLLING_INTERVAL 0).checks ≤ MAX_RETRIES
  ∧ ((∀ j, isFinishedState (states j) = false ∧ isFailedState (states j) = false) →
      (pollLoop states 0 POLLING_INTERVAL 0).result = .timeout)
  ∧ (∀ (elapsed p : ℚ) (r : Nat),
      MAX_INDEX_WAIT_TIME ≤ elapsed ∨ MAX_RETRIES ≤ r →
      pollLoop states elapsed p r = ⟨0, [], .timeout⟩) := by
  refine ⟨?_, ?_, ?_, ?_⟩
  · exact pollLoop_sleeps_getD states MAX_RETRIES 0 0 POLLING_INTERVAL
      (by omega) (by norm_num [POLLING_INTERVAL])
  · exact pollLoop_checks_le states MAX_RETRIES 0 0 POLLING_INTERVAL (by omega)
  · intro hb
    exact pollLoop_timeout states hb MAX_RETRIES 0 0 POLLING_INTERVAL (by omega)
  · intro elapsed p r hr
    apply pollLoop_stopped
    rintro ⟨h1, h2⟩
    rcases hr with hr | hr
    · linarith
    · omega

theorem C5_witness :
    (pollLoop (fun _ => "InProgress") 0 POLLING_INTERVAL 0).result =
      PollResult.timeout :=
  (C5_poll_schedule (fun _ => "InProgress")).2.2.1 (fun _ => ⟨by decide, by decide⟩)

/-- C6: every `createIndex` call issued by `createIndexIfNeeded` carries
`nlist = min 128 (max 4 ⌈n / 2⌉)` (with `⌈n / 2⌉ = (n + 1) / 2` on
naturals), which for `n ≥ 1` always lies in `[4, 128]`, equals 4 for
`n ≤ 8`, and equals 128 for `n ≥ 255`. -/
theorem C6_nlist_bounds (n : Nat) (hn : 1 ≤ n) :
    (∀ (describeResult : Option Nat) (states : Nat → String),
        ∀ v ∈ (createIndexIfNeeded describeResult states n).createCalls,
          v = min 128 (max 4 ((n + 1) / 2)))
  ∧ 4 ≤ nlist n ∧ nlist n ≤ 128
  ∧ (n ≤ 8 → nlist n = 4)
  ∧ (255 ≤ n → nlist n = 128) := by
  refine ⟨?_, ?_, ?_, ?_, ?_⟩
  · intro describeResult states v hv
    rcases createCalls_eq_nil_or describeResult states n with h | h
    · rw [h] at hv
      simp at hv
    · rw [h] at hv
      simp at hv
      rw [hv]
      rfl
  · simp only [nlist]
    omega
  · simp only [nlist]
    omega
  · intro h
    simp only [nlist]
    omega
  · intro h
    simp only [nlist]
    omega

theorem C6_witness : 4 ≤ nlist 9 ∧ nlist 9 ≤ 128 :=
  ⟨(C6_nlist_bounds 9 (by norm_num)).2.1, (C6_nlist_bounds 9 (by norm_num)).2.2.1⟩

/-- C7: whenever a poll that actually happens (the loop guard holds)
observes a failed index state, the loop throws the build-failure error at
once — that poll is its only state check and it sleeps no further; in
particular a failed state on the very first poll makes
`createIndexIfNeeded` fail with one state check and no sleep. -/
theorem C7_failed_immediate (states : Nat → String) (elapsed p : ℚ) (r : Nat)
    (h1 : elapsed < MAX_INDEX_WAIT_TIME) (h2 : r < MAX_RETRIES)
    (hf : isFailedState (states r) = true) :
    pollLoop states elapsed p r = ⟨1, [], .buildFailed⟩
  ∧ (isFailedState (states 0) = true →
      ∀ (m : Nat),
        (createIndexIfNeeded none states m).stateChecks = 1
      ∧ (createIndexIfNeeded none states m).sleeps = []
      ∧ (createIndexIfNeeded none states m).outcome = .buildFailed) := by
  constructor
  · exact pollLoop_failed states elapsed p r h1 h2 hf
  · intro h0 m
    have hp := pollLoop_failed states 0 POLLING_INTERVAL 0
      (by norm_num [MAX_INDEX_WAIT_TIME]) (by norm_num [MAX_RETRIES]) h0
    simp [createIndexIfNeeded, buildIndex, hp]

theorem C7_witness :
    pollLoop (fun _ => "Failed") 0 POLLING_INTERVAL 0 =
      ⟨1, [], PollResult.buildFailed⟩ :=
  (C7_failed_immediate (fun _ => "Failed") 0 POLLING_INTERVAL 0
    (by norm_num [MAX_INDEX_WAIT_TIME]) (by norm_num [MAX_RETRIES]) (by decide)).1

/-- C8: `createIndexIfNeeded` is idempotent: when `describeIndex` reports at
least one existing index description it returns success with zero
`createIndex` calls and zero state polls; and across two successive calls
where the second call's describe reflects any index the first call created,
at most one `createIndex` call is made in total. -/
theorem C8_idempotent :
    (∀ (d : Nat) (states : Nat → String) (n : Nat), 0 < d →
        createIndexIfNeeded (some d) states n = ⟨[], 0, [], .alreadyExists⟩)
  ∧ (∀ (r1 : Option Nat) (s1 : Nat → String) (n1 : Nat)
        (d2 : Nat) (s2 : Nat → String) (n2 : Nat),
        ((createIndexIfNeeded r1 s1 n1).createCalls ≠ [] → 0 < d2) →
        (createIndexIfNeeded r1 s1 n1).createCalls.length +
          (createIndexIfNeeded (some d2) s2 n2).createCalls.length ≤ 1) := by
  have hshort : ∀ (d : Nat) (states : Nat → String) (n : Nat), 0 < d →
      createIndexIfNeeded (some d) states n = ⟨[], 0, [], .alreadyExists⟩ := by
    intro d states n hd
    simp [createIndexIfNeeded, hd]
  refine ⟨hshort, ?_⟩
  intro r1 s1 n1 d2 s2 n2 hcond
  rcases createCalls_eq_nil_or r1 s1 n1 with h1 | h1
  · rcases createCalls_eq_nil_or (some d2) s2 n2 with h2 | h2 <;> simp [h1, h2]
  · have hd2 : 0 < d2 := hcond (by simp [h1])
    rw [hshort d2 s2 n2 hd2]
    simp [h1]

theorem C8_witness :
    createIndexIfNeeded (some 1) (fun _ => "Finished") 5 =
      ⟨[], 0, [], IndexOutcome.alreadyExists⟩ :=
  C8_idempotent.1 1 (fun _ => "Finished") 5 (by norm_num)

/-- C9: for a non-empty record sequence the insert step issues its calls
sequentially with at most 1000 records in each, and the concatenation of the
batches in issue order is exactly the record sequence — every record is sent
once; the handler's insert calls for a single-file result are exactly these
batches. -/
theorem C9_insert_batching {A : Type} (records : List A) (hne : records ≠ []) :
    (∀ b ∈ insertBatches records, b.length ≤ 1000)
  ∧ (insertBatches records).flatten = records
  ∧ (postIndex [records]).2 = insertBatches records := by
  refine ⟨?_, ?_, ?_⟩
  · intro b hb
    unfold insertBatches at hb
    by_cases h : records.length > 1000
    · simp only [h, if_true] at hb
      exact batches_length_le 1000 records b hb
    · simp only [h, if_false] at hb
      simp at hb
      subst hb
      omega
  · unfold insertBatches
    by_cases h : records.length > 1000
    · simp only [h, if_true]
      exact batches_join 1000 (by norm_num) records
    · simp [h]
  · have hlen : ¬ records.length = 0 := by
      simpa using hne
    simp [postIndex, hlen]

theorem C9_witness :
    (insertBatches [1, 2, 3]).flatten = [1, 2, 3] :=
  (C9_insert_batching [1, 2, 3] (by decide)).2.1

/-- C10: although the spec leaves output order open, `processConcurrently`
preserves it: with `maxConcurrency ≥ 1` the output is exactly the in-order
subsequence of the successful operations' results, `items.filterMap
processor`. -/
theorem C10_order_preserving {T R : Type} (items : List T)
    (processor : T → Option R) (maxConcurrency : Nat) (hk : 1 ≤ maxConcurrency) :
    processConcurrently items processor maxConcurrency =
      items.filterMap processor :=
  processConcurrently_eq_filterMap processor maxConcurrency hk items

theorem C10_witness :
    processConcurrently [1, 2, 3] (fun x => if x = 2 then none else some (x + 10)) 2 =
      List.filterMap (fun x => if x = 2 then none else some (x + 10)) [1, 2, 3] :=
  C10_order_preserving [1, 2, 3] (fun x => if x = 2 then none else some (x + 10)) 2
    (by norm_num)

end Snipiq
